import Mathlib

/-!
Verification development for the midi_foundation repository
(src/midi_engine: config.py, midi_io.py, engine.py, main.py).

The Python modules are shallowly embedded: pure data flow becomes Lean
functions, object state becomes explicit state records, and raised
exceptions become Except values. The external YAML library is treated as
a faithful serializer: files store the parsed document tree (a Yaml
value), so that yaml.safe_dump followed by yaml.safe_load is the
identity on the trees this program writes; the navigation logic of
load_config and save_config is translated line by line from config.py.
-/

set_option autoImplicit false

namespace MidiFoundation

/-- Document tree produced by yaml.safe_load: null, strings, sequences and
mappings cover every value this program reads or writes. -/
inductive Yaml where
  | null
  | str (s : String)
  | list (xs : List Yaml)
  | map (kvs : List (String × Yaml))

/-- State of one path in the file system: absent, present but not readable
(read_text raises OSError), or readable with a parsed content tree. -/
inductive FileState where
  | absent
  | unreadable
  | readable (content : Yaml)

/-- File system as a total map from path strings to file states. -/
def FS : Type := String → FileState

/-- Overwrite of one path, as performed by Path.write_text. -/
def writeFile (fs : FS) (p : String) (content : Yaml) : FS :=
  fun q => if q = p then FileState.readable content else fs q

/-- Path.replace (os.replace): atomically moves src over dst. Renaming a
path onto itself leaves the file unchanged, as under POSIX. -/
def rename (fs : FS) (src dst : String) : FS :=
  fun q => if q = dst then fs src else if q = src then FileState.absent else fs q

/-- CPython semantics of PurePath.with_suffix for a plain file name: the
last dot of the name starts the suffix, except a leading dot (hidden
files have no suffix); the suffix is replaced, or appended when absent. -/
def withSuffix (path suffix : String) : String :=
  let rev := path.toList.reverse
  if rev.contains (Char.ofNat 46) then
    let stemRev := (rev.dropWhile (fun c => c != Char.ofNat 46)).drop 1
    if stemRev.isEmpty then path ++ suffix
    else String.mk stemRev.reverse ++ suffix
  else path ++ suffix

/-- MidiConfig dataclass of config.py: the two selected port-name lists.
The fields hold Yaml values because load_config stores whatever object the
parsed document supplies, without validation. -/
structure MidiConfig where
  inputs : Yaml := Yaml.list []
  outputs : Yaml := Yaml.list []

/-- Config dataclass of config.py. -/
structure Config where
  midi : MidiConfig := {}

/-- Zero-value Config(), with empty input and output lists. -/
def Config.default : Config := {}

/-- Config holding two concrete lists of port-name strings. -/
def Config.ofNames (ins outs : List String) : Config :=
  { midi := { inputs := Yaml.list (ins.map Yaml.str),
              outputs := Yaml.list (outs.map Yaml.str) } }

/-- Exceptions that the embedded functions can raise. -/
inductive PyError where
  | ioError
  | attributeError
  | openError
  | callbackError
  deriving Repr, DecidableEq

/-- Python truthiness of a Yaml value, used by the expression
(yaml.safe_load(...) or \x7b\x7d) in load_config. -/
def yamlFalsy : Yaml → Bool
  | Yaml.null => true
  | Yaml.str s => s.isEmpty
  | Yaml.list xs => xs.isEmpty
  | Yaml.map kvs => kvs.isEmpty

/-- The expression (data or \x7b\x7d): an empty mapping replaces any falsy
parse result, such as the None produced by an empty document. -/
def orEmptyMap (y : Yaml) : Yaml :=
  if yamlFalsy y then Yaml.map [] else y

/-- dict.get(key, default): defined on mappings; on any other object the
attribute access raises AttributeError, as in CPython. -/
def yGet (y : Yaml) (key : String) (dflt : Yaml) : Except PyError Yaml :=
  match y with
  | Yaml.map kvs => Except.ok ((kvs.lookup key).getD dflt)
  | _ => Except.error PyError.attributeError

/-- load_config of config.py: returns Config() when the path does not
exist; otherwise reads and parses the file and navigates
data.get("midi").get("inputs"/"outputs"). An unreadable file or a
non-mapping document makes the corresponding call raise. -/
def load_config (fs : FS) (path : String) : Except PyError Config :=
  match fs path with
  | FileState.absent => Except.ok Config.default
  | FileState.unreadable => Except.error PyError.ioError
  | FileState.readable content => do
      let data := orEmptyMap content
      let midi ← yGet data "midi" (Yaml.map [])
      let ins ← yGet midi "inputs" (Yaml.list [])
      let outs ← yGet midi "outputs" (Yaml.list [])
      Except.ok { midi := { inputs := ins, outputs := outs } }

/-- Document tree that save_config serializes. -/
def configToYaml (cfg : Config) : Yaml :=
  Yaml.map [("midi", Yaml.map [("inputs", cfg.midi.inputs),
                               ("outputs", cfg.midi.outputs)])]

/-- State of the file system after the temp-file write of save_config but
before the rename: the point where a crash would leave the system. -/
def save_config_tmpWritten (fs : FS) (cfg : Config) (path : String) : FS :=
  writeFile fs (withSuffix path ".tmp") (configToYaml cfg)

/-- save_config of config.py: writes the serialized config to
path.with_suffix(".tmp") and then renames the temp file over path. The
directory creation step has no effect on the contents of other paths and
is omitted. -/
def save_config (fs : FS) (cfg : Config) (path : String) : FS :=
  rename (save_config_tmpWritten fs cfg path) (withSuffix path ".tmp") path

/-! Embedding of midi_io.py. A mido Message is an opaque payload; an open
input port is its name together with the queue of messages pending on it.
The MultiPort aggregate always wraps exactly the list self.input_ports
(open_inputs builds it from that list and close_inputs drops both), so it
is modelled as a presence flag, and the blocking receive polls
input_ports directly. Timestamps from time.time() are modelled by one
clock value passed in by the caller. -/

/-- Opaque MIDI message payload (status, channel, data bytes). -/
structure Message where
  bytes : List Nat
  deriving Repr, DecidableEq

/-- MidiEvent dataclass of midi_io.py: the port_name field defaults to
None, exactly as in the source. -/
structure MidiEvent where
  timestamp : Nat
  message : Message
  port_name : Option String := none
  deriving Repr, DecidableEq

/-- One open input port: its name and its pending message queue. -/
structure InputPort where
  name : String
  pending : List Message
  deriving Repr, DecidableEq

/-- Mutable state of a MidiIO object: open inputs, open outputs (by
name), and whether the MultiPort aggregate handle is present. -/
structure MidiIOState where
  input_ports : List InputPort
  output_ports : List String
  multi_in : Bool
  deriving Repr, DecidableEq

/-- Freshly constructed MidiIO object. -/
def MidiIOState.init : MidiIOState :=
  { input_ports := [], output_ports := [], multi_in := false }

/-- close_inputs: closes every open input (per-port close errors are
swallowed by the try/except in the source, so every port is closed),
clears the list and drops the MultiPort. Returns the names closed. -/
def close_inputs (st : MidiIOState) : List String × MidiIOState :=
  (st.input_ports.map (fun p => p.name),
   { st with input_ports := [], multi_in := false })

/-- close_outputs: closes every open output, swallowing per-port errors,
and clears the list. Returns the names closed. -/
def close_outputs (st : MidiIOState) : List String × MidiIOState :=
  (st.output_ports, { st with output_ports := [] })

/-- The for-loop of open_inputs and open_outputs: mido.open_input(n) (or
open_output) is called for each name in order with no surrounding
try/except, so the first failure propagates and ends the loop. The opener
argument says which names open successfully. Returns the names attempted,
the names successfully opened, and whether an exception escaped. -/
def openLoop (opener : String → Bool) : List String → List String × List String × Bool
  | [] => ([], [], false)
  | n :: rest =>
      if opener n then
        let r := openLoop opener rest
        (n :: r.1, n :: r.2.1, r.2.2)
      else ([n], [], true)

/-- Observable outcome of one open_inputs or open_outputs call. -/
structure OpenTrace where
  closed : List String
  attempted : List String
  opened : List String
  raised : Bool
  state : MidiIOState
  deriving Repr, DecidableEq

/-- open_inputs of midi_io.py: first close_inputs, then open each name in
order; on success assign input_ports and build the MultiPort when the
list is nonempty. When an open raises, the assignment is never reached:
the object keeps the post-close state (no inputs recorded, no MultiPort)
and the ports opened before the failure are left unrecorded. -/
def open_inputs (opener : String → Bool) (st : MidiIOState) (names : List String) : OpenTrace :=
  let c := close_inputs st
  let r := openLoop opener names
  if r.2.2 then
    { closed := c.1, attempted := r.1, opened := r.2.1, raised := true, state := c.2 }
  else
    { closed := c.1, attempted := r.1, opened := r.2.1, raised := false,
      state := { c.2 with
        input_ports := r.2.1.map (fun n => InputPort.mk n []),
        multi_in := !r.2.1.isEmpty } }

/-- open_outputs of midi_io.py: first close_outputs, then open each name
in order; on success assign output_ports. A failure propagates and leaves
the post-close state. -/
def open_outputs (opener : String → Bool) (st : MidiIOState) (names : List String) : OpenTrace :=
  let c := close_outputs st
  let r := openLoop opener names
  if r.2.2 then
    { closed := c.1, attempted := r.1, opened := r.2.1, raised := true, state := c.2 }
  else
    { closed := c.1, attempted := r.1, opened := r.2.1, raised := false,
      state := { c.2 with output_ports := r.2.1 } }

/-- mido MultiPort.receive with blocking: polls the ports in list order
and pops the first pending message; when no port has a pending message
the call blocks until one arrives (none models a call that never
returns because no message ever does). -/
def multiReceive : List InputPort → Option (Message × List InputPort)
  | [] => none
  | p :: rest =>
      match p.pending with
      | [] =>
          match multiReceive rest with
          | none => none
          | some mr => some (mr.1, p :: mr.2)
      | m :: ms => some (m, { p with pending := ms } :: rest)

/-- The iter_pending drain loop of read_events: for each port in order,
every pending message becomes a MidiEvent tagged with that port name, and
the queues are emptied. -/
def drainPending (now : Nat) : List InputPort → List MidiEvent × List InputPort
  | [] => ([], [])
  | p :: rest =>
      let r := drainPending now rest
      (p.pending.map (fun m => { timestamp := now, message := m, port_name := some p.name }) ++ r.1,
       { p with pending := [] } :: r.2)

/-- read_events of midi_io.py. Returns none only when the call would
block forever (blocking mode, MultiPort present, and no message ever
arrives on any input); otherwise some (events, new state). In blocking
mode the event built from multi_in.receive() carries no port name, as in
the source; the events drained afterwards are tagged. -/
def read_events (now : Nat) (st : MidiIOState) (non_blocking : Bool := true) :
    Option (List MidiEvent × MidiIOState) :=
  if st.input_ports.isEmpty then some ([], st)
  else if non_blocking then
    let r := drainPending now st.input_ports
    some (r.1, { st with input_ports := r.2 })
  else if !st.multi_in then some ([], st)
  else
    match multiReceive st.input_ports with
    | none => none
    | some mr =>
        let r := drainPending now mr.2
        some ({ timestamp := now, message := mr.1 } :: r.1,
              { st with input_ports := r.2 })

/-- send_event of midi_io.py: writes the message of the event to every
open output in order; a per-output send failure is swallowed by the
try/except, so the remaining outputs still receive the message. Returns
the (output name, message) deliveries that succeeded. -/
def send_event (sendFail : String → Bool) (st : MidiIOState) (e : MidiEvent) :
    List (String × Message) :=
  st.output_ports.filterMap (fun o => if sendFail o then none else some (o, e.message))

/-! Embedding of engine.py and the shutdown path of main.py. The loop
body of Engine._run handles one batch of events from a blocking read;
exceptions are modelled in Except, and each try/except pass of the
source becomes an explicit catch that discards the error. -/

/-- Body of Engine._run for one batch returned by read_events: for each
event in order, the observer callback runs inside try/except pass, then
the event is handed to send_event inside try/except pass. The cb
argument models a registered observer (the source also guards for the
callback being absent, in which case the claim about it is vacuous) and
may raise; send_event never raises
because its own per-output try/except swallows everything, so the outer
guard around it has nothing to catch. Returns the events handed to
send_event in order together with the successful deliveries; an error
result would mean an exception escaped the loop body. -/
def engineBatch (cb : MidiEvent → Except PyError Unit) (sendFail : String → Bool)
    (st : MidiIOState) :
    List MidiEvent → Except PyError (List MidiEvent × List (String × Message))
  | [] => Except.ok ([], [])
  | e :: rest =>
      let afterCb : Except PyError Unit :=
        match cb e with
        | Except.ok u => Except.ok u
        | Except.error _ => Except.ok ()
      match afterCb with
      | Except.error err => Except.error err
      | Except.ok _ =>
          let sent := send_event sendFail st e
          match engineBatch cb sendFail st rest with
          | Except.error err => Except.error err
          | Except.ok tr => Except.ok (e :: tr.1, sent ++ tr.2)

/-- The three shutdown steps of main.py. -/
inductive ShutStep where
  | stop
  | close
  | save
  deriving Repr, DecidableEq

/-- The _shutdown handler of main.py (the finally block of main runs the
same sequence): engine.stop(); midi.close(); save_config(cfg), one call
after the other with no try/except around any step, so an exception
raised by a step ends the sequence there and propagates. Each argument
models the outcome of one call. Returns the steps that ran, in order,
and the exception that escaped, if any. -/
def shutdownSeq (stopR closeR saveR : Except PyError Unit) :
    List ShutStep × Option PyError :=
  match stopR with
  | Except.error e => ([ShutStep.stop], some e)
  | Except.ok _ =>
      match closeR with
      | Except.error e => ([ShutStep.stop, ShutStep.close], some e)
      | Except.ok _ =>
          match saveR with
          | Except.error e => ([ShutStep.stop, ShutStep.close, ShutStep.save], some e)
          | Except.ok _ => ([ShutStep.stop, ShutStep.close, ShutStep.save], none)

/-- Concrete two-input scenario of the end-to-end test: inputs A and B,
one pending message on each (a note-on and a note-off on middle C), one
open output O, MultiPort present. -/
def exampleState : MidiIOState :=
  { input_ports := [InputPort.mk "A" [Message.mk [144, 60, 100]],
                    InputPort.mk "B" [Message.mk [128, 60, 0]]],
    output_ports := ["O"],
    multi_in := true }

/-! Theorems settling the claims. -/

/-- C1 counterexample: the claim quantifies over every path, but for a
destination whose name already ends in ".tmp" the temp path computed by
with_suffix(".tmp") coincides with the destination, so the temp-write
itself overwrites the destination: a crash before the rename leaves the
new (possibly partial) content, not the previous version, at the
destination path. -/
theorem save_config_tmp_clobbers_destination :
    save_config_tmpWritten (fun _ => FileState.readable Yaml.null)
        (Config.ofNames ["x"] []) "config.tmp" "config.tmp" ≠
      (fun (_ : String) => FileState.readable Yaml.null) "config.tmp" := by
  have h : withSuffix "config.tmp" ".tmp" = "config.tmp" := by decide
  simp [save_config_tmpWritten, writeFile, h, configToYaml]

/-- C1 (amended): whenever the temp path path.with_suffix(".tmp") differs
from the destination path — that is, whenever the destination name does
not itself end in ".tmp" — a crash after the temp-write but before the
rename leaves the destination byte-identical to what it was before the
call, and the completed save leaves exactly the new serialized config at
the destination. -/
theorem save_config_atomic_replace (fs : FS) (cfg : Config) (p : String)
    (h : withSuffix p ".tmp" ≠ p) :
    save_config_tmpWritten fs cfg p p = fs p ∧
    save_config fs cfg p p = FileState.readable (configToYaml cfg) := by
  refine ⟨?_, ?_⟩
  · simp [save_config_tmpWritten, writeFile, Ne.symm h]
  · simp [save_config, rename, save_config_tmpWritten, writeFile]

/-- Witness for save_config_atomic_replace at the default-style path
config.yaml over an empty file system. -/
theorem save_config_atomic_replace_witness :
    save_config_tmpWritten (fun _ => FileState.absent) Config.default
        "config.yaml" "config.yaml" = (fun (_ : String) => FileState.absent) "config.yaml" ∧
    save_config (fun _ => FileState.absent) Config.default "config.yaml" "config.yaml" =
      FileState.readable (configToYaml Config.default) :=
  save_config_atomic_replace (fun _ => FileState.absent) Config.default "config.yaml"
    (by decide)

/-- C2: saving a config holding any two lists of port-name strings and
loading it back from the same path yields the original config, for every
starting file system and every path. -/
theorem save_load_roundtrip (ins outs : List String) (fs : FS) (p : String) :
    load_config (save_config fs (Config.ofNames ins outs) p) p =
      Except.ok (Config.ofNames ins outs) := by
  have hdst : ∀ cfg : Config, save_config fs cfg p p =
      FileState.readable (configToYaml cfg) := by
    intro cfg
    simp [save_config, rename, save_config_tmpWritten, writeFile]
  simp only [load_config, hdst]
  simp [configToYaml, orEmptyMap, yamlFalsy, yGet, Config.ofNames, List.lookup,
    bind, Except.bind]

/-- C6 counterexample: the claim says an unreadable file yields the
zero-value config and that load_config never raises, but the source only
guards the missing-file case: for a file that exists and is unreadable,
read_text raises and the exception escapes load_config. -/
theorem load_config_unreadable_raises_cex :
    load_config (fun _ => FileState.unreadable) "config.yaml" ≠
        Except.ok Config.default ∧
    load_config (fun _ => FileState.unreadable) "config.yaml" =
        Except.error PyError.ioError := by
  constructor <;> simp [load_config]

/-- C6 (amended): load_config returns the zero-value config when the file
at the path does not exist, but when the file exists and is unreadable
the read raises and the exception propagates past load_config; stated
for every path over every surrounding file system. -/
theorem load_config_boundary (fs : FS) (p : String) :
    load_config (fun q => if q = p then FileState.absent else fs q) p =
        Except.ok Config.default ∧
    load_config (fun q => if q = p then FileState.unreadable else fs q) p =
        Except.error PyError.ioError := by
  constructor <;> simp [load_config]

/-- Helper: when every requested name opens successfully, the open loop
attempts and opens exactly the requested names and raises nothing. -/
theorem openLoop_success (opener : String → Bool) (names : List String)
    (h : ∀ n ∈ names, opener n = true) :
    openLoop opener names = (names, names, false) := by
  induction names with
  | nil => rfl
  | cons n rest ih =>
      have hn : opener n = true := h n (by simp)
      have hr := ih (fun m hm => h m (by simp [hm]))
      simp [openLoop, hn, hr]

/-- Helper: when some requested name fails to open, the open loop attempts
only the names up to and including the first failing one, opens the
prefix before it, and lets the exception escape. -/
theorem openLoop_failure (opener : String → Bool) (names : List String)
    (h : names.dropWhile opener ≠ []) :
    openLoop opener names =
      (names.takeWhile opener ++ (names.dropWhile opener).take 1,
       names.takeWhile opener, true) := by
  induction names with
  | nil => simp at h
  | cons n rest ih =>
      by_cases hn : opener n = true
      · have h2 : rest.dropWhile opener ≠ [] := by
          simpa [List.dropWhile_cons, hn] using h
        simp [openLoop, hn, ih h2, List.takeWhile_cons, List.dropWhile_cons]
      · have hn2 : opener n = false := by
          cases hb : opener n
          · rfl
          · exact absurd hb hn
        simp [openLoop, hn2, List.takeWhile_cons, List.dropWhile_cons]

/-- C5 counterexample: with ports a and c openable and b failing, the call
open_inputs(["a", "b", "c"]) never attempts c, records no port as open
(even though a opened successfully at the system level), and raises. -/
theorem open_inputs_failure_not_isolated_cex :
    "c" ∉ (open_inputs (fun n => n != "b") MidiIOState.init ["a", "b", "c"]).attempted ∧
    (open_inputs (fun n => n != "b") MidiIOState.init ["a", "b", "c"]).opened = ["a"] ∧
    (open_inputs (fun n => n != "b") MidiIOState.init ["a", "b", "c"]).state.input_ports = [] ∧
    (open_inputs (fun n => n != "b") MidiIOState.init ["a", "b", "c"]).raised = true := by
  decide

/-- C5 (amended): a failure to open one named port aborts the open_inputs
call: the names after the first failing one are not attempted, the ports
that did open are not recorded (the input list stays empty, since the
previous inputs were already closed, and no MultiPort is built), and the
failure is observable only as the exception that propagates to the
caller, not as per-port status. -/
theorem open_inputs_abort_on_failure (opener : String → Bool) (st : MidiIOState)
    (names : List String) (h : names.dropWhile opener ≠ []) :
    (open_inputs opener st names).raised = true ∧
    (open_inputs opener st names).attempted =
      names.takeWhile opener ++ (names.dropWhile opener).take 1 ∧
    (open_inputs opener st names).opened = names.takeWhile opener ∧
    (open_inputs opener st names).state.input_ports = [] ∧
    (open_inputs opener st names).state.multi_in = false := by
  simp [open_inputs, close_inputs, openLoop_failure opener names h]

/-- Witness for open_inputs_abort_on_failure with b the failing port. -/
theorem open_inputs_abort_on_failure_witness :
    ["a", "b", "c"].dropWhile (fun n => n != "b") ≠ [] ∧
    ((open_inputs (fun n => n != "b") MidiIOState.init ["a", "b", "c"]).raised = true ∧
     (open_inputs (fun n => n != "b") MidiIOState.init ["a", "b", "c"]).attempted =
       ["a", "b", "c"].takeWhile (fun n => n != "b") ++
         (["a", "b", "c"].dropWhile (fun n => n != "b")).take 1 ∧
     (open_inputs (fun n => n != "b") MidiIOState.init ["a", "b", "c"]).opened =
       ["a", "b", "c"].takeWhile (fun n => n != "b") ∧
     (open_inputs (fun n => n != "b") MidiIOState.init ["a", "b", "c"]).state.input_ports = [] ∧
     (open_inputs (fun n => n != "b") MidiIOState.init ["a", "b", "c"]).state.multi_in = false) :=
  ⟨by decide,
   open_inputs_abort_on_failure (fun n => n != "b") MidiIOState.init ["a", "b", "c"] (by decide)⟩

/-- C7 counterexample: after a successful open_inputs(["x"]), the call
open_inputs(["a", "b"]) with b failing closes x (replace semantics) but
then leaves no port marked open, although a from the most recent
requested list opened successfully — so the state does not equal the
successfully opened ports of the latest call. -/
theorem open_replace_partial_cex :
    (open_inputs (fun n => n != "b")
        (open_inputs (fun _ => true) MidiIOState.init ["x"]).state ["a", "b"]).closed = ["x"] ∧
    (open_inputs (fun n => n != "b")
        (open_inputs (fun _ => true) MidiIOState.init ["x"]).state ["a", "b"]).opened = ["a"] ∧
    (open_inputs (fun n => n != "b")
        (open_inputs (fun _ => true) MidiIOState.init ["x"]).state
        ["a", "b"]).state.input_ports.map (fun p => p.name) ≠ ["a"] := by
  decide

/-- Helper: projecting the name back out of freshly built input ports
gives the requested names. -/
theorem map_name_mk_comp (ns : List String) :
    ns.map ((fun p : InputPort => p.name) ∘ fun n => InputPort.mk n []) = ns := by
  induction ns with
  | nil => rfl
  | cons a t ih => simpa using ih

/-- C7 (amended): every open_inputs or open_outputs call first closes all
ports currently open in its direction; when every requested name opens
successfully, exactly the requested names are marked open afterwards and
no earlier handle remains marked; when any open fails, the call raises
and leaves no port marked open in that direction (the successfully
opened prefix is not recorded). -/
theorem open_replace_semantics (opener : String → Bool) (st : MidiIOState)
    (names : List String) :
    (open_inputs opener st names).closed = st.input_ports.map (fun p => p.name) ∧
    (open_outputs opener st names).closed = st.output_ports ∧
    ((∀ n ∈ names, opener n = true) →
      (open_inputs opener st names).state.input_ports.map (fun p => p.name) = names ∧
      (open_inputs opener st names).raised = false ∧
      (open_outputs opener st names).state.output_ports = names ∧
      (open_outputs opener st names).raised = false) ∧
    ((open_inputs opener st names).raised = true →
      (open_inputs opener st names).state.input_ports = []) ∧
    ((open_outputs opener st names).raised = true →
      (open_outputs opener st names).state.output_ports = []) := by
  refine ⟨?_, ?_, ?_, ?_, ?_⟩
  · cases hb : (openLoop opener names).2.2 <;>
      simp [open_inputs, close_inputs, hb]
  · cases hb : (openLoop opener names).2.2 <;>
      simp [open_outputs, close_outputs, hb]
  · intro h
    simp [open_inputs, open_outputs, close_inputs, close_outputs,
      openLoop_success opener names h, List.map_map, map_name_mk_comp]
  · intro h
    by_cases hb : (openLoop opener names).2.2 = true
    · simp [open_inputs, close_inputs, hb]
    · simp [open_inputs, close_inputs, hb] at h
  · intro h
    by_cases hb : (openLoop opener names).2.2 = true
    · simp [open_outputs, close_outputs, hb]
    · simp [open_outputs, close_outputs, hb] at h

/-- Witness for open_replace_semantics: a fully successful call marks
exactly the requested port open in each direction. -/
theorem open_replace_semantics_witness :
    (open_inputs (fun _ => true) MidiIOState.init
        ["a"]).state.input_ports.map (fun p => p.name) = ["a"] ∧
    (open_outputs (fun _ => true) MidiIOState.init ["a"]).state.output_ports = ["a"] :=
  ⟨((open_replace_semantics (fun _ => true) MidiIOState.init ["a"]).2.2.1 (by decide)).1,
   ((open_replace_semantics (fun _ => true) MidiIOState.init ["a"]).2.2.1 (by decide)).2.2.1⟩

/-- Helper: with no output failing, send_event delivers the message of
the event to every open output in list order. -/
theorem send_event_all (st : MidiIOState) (e : MidiEvent) :
    send_event (fun _ => false) st e = st.output_ports.map (fun o => (o, e.message)) := by
  have h : ∀ l : List String,
      List.filterMap (fun o => some (o, e.message)) l = l.map (fun o => (o, e.message)) := by
    intro l
    induction l with
    | nil => rfl
    | cons a t ih => simp [List.filterMap_cons, ih]
  simp [send_event, h]

/-- C3: for every observer callback, including one that raises on every
invocation, the engine loop body hands every event of the batch to
send_event in arrival order and the batch is processed without any
exception escaping; with no output failing, every event is therefore
delivered to every open output. -/
theorem engine_forwards_despite_observer_failure
    (cb : MidiEvent → Except PyError Unit) (st : MidiIOState) (events : List MidiEvent) :
    engineBatch cb (fun _ => false) st events =
      Except.ok (events,
        events.flatMap (fun e => st.output_ports.map (fun o => (o, e.message)))) := by
  induction events with
  | nil => rfl
  | cons e rest ih =>
      cases hcb : cb e <;> simp [engineBatch, hcb, ih, send_event_all]

/-- C9 counterexample: when engine.stop() raises during shutdown, neither
midi.close() nor save_config runs — the claim that a failure in an
earlier step does not skip the later steps is false for the unguarded
sequence in main.py. -/
theorem shutdown_skips_steps_cex :
    shutdownSeq (Except.error PyError.ioError) (Except.ok ()) (Except.ok ()) =
      ([ShutStep.stop], some PyError.ioError) ∧
    ShutStep.close ∉
      (shutdownSeq (Except.error PyError.ioError) (Except.ok ()) (Except.ok ())).1 ∧
    ShutStep.save ∉
      (shutdownSeq (Except.error PyError.ioError) (Except.ok ()) (Except.ok ())).1 := by
  decide

/-- C9 (amended): the shutdown steps run in the order stop engine, close
ports, save config, but the sequence is not fault-isolated: a step runs
exactly when every earlier step returned without raising, and the first
exception ends the sequence and propagates. -/
theorem shutdown_ordering (r1 r2 r3 : Except PyError Unit) :
    ((shutdownSeq r1 r2 r3).1 = [ShutStep.stop] ∨
     (shutdownSeq r1 r2 r3).1 = [ShutStep.stop, ShutStep.close] ∨
     (shutdownSeq r1 r2 r3).1 = [ShutStep.stop, ShutStep.close, ShutStep.save]) ∧
    (ShutStep.close ∈ (shutdownSeq r1 r2 r3).1 ↔ r1 = Except.ok ()) ∧
    (ShutStep.save ∈ (shutdownSeq r1 r2 r3).1 ↔
      (r1 = Except.ok () ∧ r2 = Except.ok ())) := by
  cases r1 <;> cases r2 <;> cases r3 <;> simp [shutdownSeq]

/-- Helper invariant: a fully successful open_inputs call with a nonempty
name list always builds the MultiPort handle, so every state reachable
with at least one open input has multi_in set. -/
theorem open_inputs_multi_in (opener : String → Bool) (st : MidiIOState)
    (names : List String) (hall : ∀ n ∈ names, opener n = true) (hne : names ≠ []) :
    (open_inputs opener st names).state.multi_in = true := by
  have hopen := openLoop_success opener names hall
  cases hl : names with
  | nil => exact absurd hl hne
  | cons a t =>
      rw [hl] at hopen
      simp [open_inputs, close_inputs, hopen]

/-- Helper: when some open input has a pending message, the blocking
multiplexed receive returns the first pending message in port order; the
popped message followed by the remaining queues is exactly the original
concatenation of all queues, and the port names are unchanged. -/
theorem multiReceive_spec (ports : List InputPort)
    (h : ∃ p ∈ ports, p.pending ≠ []) :
    ∃ m rest, multiReceive ports = some (m, rest) ∧
      m :: (rest.map (fun p => p.pending)).flatten =
        (ports.map (fun p => p.pending)).flatten ∧
      rest.map (fun p => p.name) = ports.map (fun p => p.name) := by
  induction ports with
  | nil => simp at h
  | cons p ps ih =>
      cases hp : p.pending with
      | nil =>
          have h2 : ∃ q ∈ ps, q.pending ≠ [] := by
            obtain ⟨q, hq, hqp⟩ := h
            rcases List.mem_cons.mp hq with hq1 | hq2
            · subst hq1
              exact absurd hp hqp
            · exact ⟨q, hq2, hqp⟩
          obtain ⟨m, rest, hmr, hjoin, hnames⟩ := ih h2
          refine ⟨m, p :: rest, ?_, ?_, ?_⟩
          · simp [multiReceive, hp, hmr]
          · simpa [hp] using hjoin
          · simpa using hnames
      | cons m ms =>
          refine ⟨m, { p with pending := ms } :: ps, ?_, ?_, ?_⟩
          · simp [multiReceive, hp]
          · simp [hp]
          · simp

/-- Helper: projecting the message back out of a freshly built tagged
event gives the message itself. -/
theorem map_message_mk (now : Nat) (nm : String) (ms : List Message) :
    ms.map ((fun e : MidiEvent => e.message) ∘
      fun m => { timestamp := now, message := m, port_name := some nm }) = ms := by
  induction ms with
  | nil => rfl
  | cons a t ih => simpa using ih

/-- Helper: the messages of the drained events are the concatenation of
the pending queues in port order. -/
theorem drainPending_messages (now : Nat) (ports : List InputPort) :
    ((drainPending now ports).1).map (fun e => e.message) =
      (ports.map (fun p => p.pending)).flatten := by
  induction ports with
  | nil => rfl
  | cons p ps ih => simp [drainPending, ih, List.map_map, map_message_mk]

/-- Helper: after the drain every queue is empty. -/
theorem drainPending_empty (now : Nat) (ports : List InputPort) :
    ∀ q ∈ (drainPending now ports).2, q.pending = [] := by
  induction ports with
  | nil => simp [drainPending]
  | cons p ps ih =>
      intro q hq
      simp only [drainPending] at hq
      rcases List.mem_cons.mp hq with h1 | h2
      · subst h1
        rfl
      · exact ih q h2

/-- Helper: every drained event is tagged with the name of one of the
drained ports. -/
theorem drainPending_tagged (now : Nat) (ports : List InputPort) :
    ∀ e ∈ (drainPending now ports).1, ∃ p ∈ ports, e.port_name = some p.name := by
  induction ports with
  | nil => simp [drainPending]
  | cons p ps ih =>
      intro e he
      simp only [drainPending] at he
      rcases List.mem_append.mp he with h1 | h2
      · obtain ⟨m, hm, hme⟩ := List.mem_map.mp h1
        refine ⟨p, List.mem_cons_self p ps, ?_⟩
        rw [← hme]
      · obtain ⟨q, hq, hqe⟩ := ih e h2
        exact ⟨q, List.mem_cons_of_mem p hq, hqe⟩

/-- C4: in blocking mode, once at least one message has arrived on any
open input (so the multiplexed receive has something to return), a single
read_events call returns a nonempty batch whose messages are exactly the
concatenation of every pending queue of every open input at that moment,
and afterwards no message is left pending: a burst arriving during the
wait is captured by the one call. -/
theorem read_events_blocking_burst (now : Nat) (st : MidiIOState)
    (h2 : st.multi_in = true)
    (h3 : ∃ p ∈ st.input_ports, p.pending ≠ []) :
    ∃ evs st2, read_events now st false = some (evs, st2) ∧
      evs ≠ [] ∧
      evs.map (fun e => e.message) = (st.input_ports.map (fun p => p.pending)).flatten ∧
      ∀ p ∈ st2.input_ports, p.pending = [] := by
  have h1 : st.input_ports ≠ [] := by
    obtain ⟨p, hp, _⟩ := h3
    intro hnil
    rw [hnil] at hp
    simp at hp
  have hne : st.input_ports.isEmpty = false := by
    cases hl : st.input_ports with
    | nil => exact absurd hl h1
    | cons a t => rfl
  obtain ⟨m, rest, hmr, hjoin, hnames⟩ := multiReceive_spec st.input_ports h3
  refine ⟨{ timestamp := now, message := m } :: (drainPending now rest).1,
          { st with input_ports := (drainPending now rest).2 }, ?_, ?_, ?_, ?_⟩
  · simp [read_events, hne, h2, hmr]
  · simp
  · simp only [List.map_cons]
    rw [drainPending_messages]
    simpa using hjoin
  · intro p hp
    exact drainPending_empty now rest p hp

/-- Witness for read_events_blocking_burst on the two-input scenario. -/
theorem read_events_blocking_burst_witness :
    exampleState.multi_in = true ∧
    (∃ p ∈ exampleState.input_ports, p.pending ≠ []) ∧
    (∃ evs st2, read_events 0 exampleState false = some (evs, st2) ∧
      evs ≠ [] ∧
      evs.map (fun e => e.message) =
        (exampleState.input_ports.map (fun p => p.pending)).flatten ∧
      ∀ p ∈ st2.input_ports, p.pending = []) :=
  ⟨rfl, by decide, read_events_blocking_burst 0 exampleState rfl (by decide)⟩

/-- C8 counterexample: in the two-input scenario the blocking read
returns two events, but the first — the one obtained from the
multiplexed receive — carries no source port name (None), so not every
queued event is tagged with the port it arrived on. -/
theorem blocking_event_untagged_cex :
    (read_events 0 exampleState false).map (fun r => r.1.map (fun e => e.port_name)) =
      some [none, some "B"] ∧
    (read_events 0 exampleState false).map (fun r => r.1.map (fun e => e.port_name)) ≠
      some [some "A", some "B"] := by
  decide

/-- C8 (amended): every event drained from the per-port pending queues is
tagged with the name of one of the open inputs, but the first event of a
blocking read — built from the multiplexed receive — always has
port_name None. -/
theorem read_events_tagging (now : Nat) (st : MidiIOState)
    (h2 : st.multi_in = true)
    (h3 : ∃ p ∈ st.input_ports, p.pending ≠ []) :
    ∃ m evs st2,
      read_events now st false =
        some ({ timestamp := now, message := m, port_name := none } :: evs, st2) ∧
      ∀ e ∈ evs, ∃ p ∈ st.input_ports, e.port_name = some p.name := by
  have h1 : st.input_ports ≠ [] := by
    obtain ⟨p, hp, _⟩ := h3
    intro hnil
    rw [hnil] at hp
    simp at hp
  have hne : st.input_ports.isEmpty = false := by
    cases hl : st.input_ports with
    | nil => exact absurd hl h1
    | cons a t => rfl
  obtain ⟨m, rest, hmr, hjoin, hnames⟩ := multiReceive_spec st.input_ports h3
  refine ⟨m, (drainPending now rest).1,
          { st with input_ports := (drainPending now rest).2 }, ?_, ?_⟩
  · simp [read_events, hne, h2, hmr]
  · intro e he
    obtain ⟨p, hp, hpe⟩ := drainPending_tagged now rest e he
    have hmem : p.name ∈ st.input_ports.map (fun q => q.name) := by
      rw [← hnames]
      exact List.mem_map_of_mem (fun q => q.name) hp
    obtain ⟨q, hq, hqn⟩ := List.mem_map.mp hmem
    refine ⟨q, hq, ?_⟩
    rw [hpe, hqn]

/-- Witness for read_events_tagging on the two-input scenario. -/
theorem read_events_tagging_witness :
    exampleState.multi_in = true ∧
    (∃ p ∈ exampleState.input_ports, p.pending ≠ []) ∧
    (∃ m evs st2,
      read_events 0 exampleState false =
        some ({ timestamp := 0, message := m, port_name := none } :: evs, st2) ∧
      ∀ e ∈ evs, ∃ p ∈ exampleState.input_ports, e.port_name = some p.name) :=
  ⟨rfl, by decide, read_events_tagging 0 exampleState rfl (by decide)⟩

/-- C10: a blocking read_events call on a state with no open inputs, or
with the multiplexed wait handle absent, returns the empty list
immediately (the state is unchanged) instead of blocking forever. -/
theorem read_events_blocking_no_inputs (now : Nat) (st : MidiIOState)
    (h : st.input_ports = [] ∨ st.multi_in = false) :
    read_events now st false = some ([], st) := by
  rcases h with h | h
  · simp [read_events, h]
  · cases hl : st.input_ports with
    | nil => simp [read_events, hl]
    | cons a t => simp [read_events, hl, h]

/-- Witness for read_events_blocking_no_inputs: one open input but no
MultiPort handle, the case the guard inside the blocking branch covers. -/
theorem read_events_blocking_no_inputs_witness :
    ((MidiIOState.mk [InputPort.mk "A" []] [] false).input_ports = [] ∨
     (MidiIOState.mk [InputPort.mk "A" []] [] false).multi_in = false) ∧
    read_events 0 (MidiIOState.mk [InputPort.mk "A" []] [] false) false =
      some ([], MidiIOState.mk [InputPort.mk "A" []] [] false) :=
  ⟨Or.inr rfl,
   read_events_blocking_no_inputs 0 (MidiIOState.mk [InputPort.mk "A" []] [] false)
     (Or.inr rfl)⟩

end MidiFoundation
